import Mathlib

/-
Verification of the deposit settlement engine of the stellar-anchor-server
repository, as implemented in src/deposit/tasks.py.

The embedding models one run of the Celery task `create_stellar_deposit`
(and its helpers `perform_standard_payment`, `perform_no_trust_payment`,
`create_claimable_account`) as a pure function from

  * an `Env` recording what the external world (the Horizon ledger API,
    the wall clock, the random keypair generator) answers during the run, and
  * the database, a list of `Transaction` rows,

to a `RunState`: the database after all `save()` calls, the ordered trace
of observable effects (database saves, ledger reads, ledger submissions and
the print statements of the source), and the control-flow outcome (normal
return, or an uncaught Python exception).

The periodic task `check_trustlines` is modelled as a fold over the rows
whose status is `pending_trust`, re-invoking the embedded entry point.
-/

namespace AnchorDeposit

/-- The two XDR result-code constants at the top of deposit/tasks.py. -/
def TRUSTLINE_FAILURE_XDR : String := "AAAAAAAAAGT/////AAAAAQAAAAAAAAAB////+gAAAAA="

/-- The canonical success result code from deposit/tasks.py. -/
def SUCCESS_XDR : String := "AAAAAAAAAGQAAAAAAAAAAQAAAAAAAAABAAAAAAAAAAA="

/-- Modelled from the spec: the status enum of the Transaction record
(transaction/models.py is not among the analyzed sources); section 6 of the
spec fixes the canonical values `pending_anchor`, `pending_stellar`,
`pending_trust`, `pending_user`, `completed`. -/
inductive Status
  | pending_anchor
  | pending_stellar
  | pending_trust
  | pending_user
  | completed
deriving DecidableEq, Repr

/-- An asset, with a code and an issuer, as read from `transaction.asset`. -/
structure Asset where
  code : String
  issuer : String
deriving DecidableEq, Repr

/-- Modelled from the spec: the Transaction record
(transaction/models.py is not among the analyzed sources).  Section 3 of the
spec lists the fields; amounts are exact decimals with 7-digit precision,
modelled as rationals.  Only the fields read or written by
deposit/tasks.py are included. -/
structure Transaction where
  id : Nat
  stellar_account : String
  asset : Asset
  amount_in : ℚ
  amount_fee : ℚ
  amount_out : Option ℚ
  status : Status
  stellar_transaction_id : Option String
  completed_at : Option Nat
  status_eta : Int
deriving DecidableEq, Repr

/-- One entry of a Horizon `balances` list.  The source reads the keys
`asset_code` and `asset_issuer` with `dict.get(key, None)` (in the task)
or with a `KeyError`-guarded lookup (in `check_trustlines`); an absent key
is `none`. -/
structure Balance where
  asset_code : Option String
  asset_issuer : Option String
deriving DecidableEq, Repr

/-- The response dictionary returned by a successful `builder.submit()`:
the task reads its `result_xdr` and `hash` keys. -/
structure SubmitResponse where
  result_xdr : String
  hash : String
deriving DecidableEq, Repr

/-- What a call to `builder.submit()` does: either it returns a response
dictionary, or it raises `HorizonError` with a status code and message. -/
inductive SubmitResult
  | response (r : SubmitResponse)
  | horizonError (status_code : Nat) (message : String)
deriving DecidableEq, Repr

/-- What `address.get()` does: either the account is found, carrying its
`balances` list, or `HorizonError` is raised (status code 404 means the
account does not exist). -/
inductive AddressGetResult
  | found (balances : List Balance)
  | horizonError (status_code : Nat) (message : String)
deriving DecidableEq, Repr

/-- The Django settings read by the task module. -/
structure Settings where
  STELLAR_DISTRIBUTION_ACCOUNT_SEED : String
  ACCOUNT_STARTING_BALANCE : String
deriving DecidableEq, Repr

/-- Everything the outside world supplies during one run of
`create_stellar_deposit`: settings, the address of the distribution
keypair, the randomly generated intermediate keypair, the clock, and the
responses of each external call the run can make. -/
structure Env where
  settings : Settings
  anchorAddress : String
  intermediateKey : String
  intermediateSeed : String
  nowTime : Nat
  addressGet : AddressGetResult
  paymentSubmit : SubmitResult
  claimableSubmit : SubmitResult
deriving Repr

/-- One ledger operation appended to a `Builder`.  The payment amount is
kept as the exact rational; the source formats it with `str()` when
appending the operation. -/
inductive LedgerOp
  | create_account (destination : String) (starting_balance : String) (source : String)
  | change_trust (asset_code : String) (asset_issuer : String) (source : String)
  | payment (source : Option String) (destination : String)
      (asset_code : String) (asset_issuer : String) (amount : ℚ)
  | set_options (source : String) (master_weight : Nat) (signer_address : String)
      (signer_weight : Nat) (signer_type : String)
deriving DecidableEq, Repr

/-- A signed envelope: the ordered operations of a `Builder` together with
the list of seeds it was signed with, in signing order. -/
structure Envelope where
  operations : List LedgerOp
  signatures : List String
deriving DecidableEq, Repr

/-- An observable effect of a run: a `transaction.save()`, an
`address.get()` ledger read, a `builder.submit()` ledger submission, or a
`print` of the source. -/
inductive Effect
  | save (t : Transaction)
  | ledgerRead (account : String)
  | ledgerSubmit (e : Envelope)
  | print (s : String)
  | printBalances (bs : List Balance)
  | printErr (status_code : Nat) (message : String)
deriving DecidableEq, Repr

/-- An uncaught Python exception escaping the task. -/
inductive PyError
  | horizonError (status_code : Nat) (message : String)
  | nameError
  | doesNotExist
deriving DecidableEq, Repr

/-- How a run ends: a normal return, or an uncaught exception. -/
inductive RunOutcome
  | ok
  | raised (e : PyError)
deriving DecidableEq, Repr

/-- Result of one of the helper functions, which work on the in-memory
transaction object: the object afterwards, the effects performed, and the
outcome. -/
structure HelperResult where
  transaction : Transaction
  effects : List Effect
  outcome : RunOutcome
deriving DecidableEq, Repr

/-- Result of a full task run: the database after all saves, the effect
trace, and the outcome. -/
structure RunState where
  db : List Transaction
  effects : List Effect
  outcome : RunOutcome
deriving DecidableEq, Repr

/-- `Transaction.objects.get(id=transaction_id)`: the first row with the
given id, if any. -/
def dbGet (db : List Transaction) (transaction_id : Nat) : Option Transaction :=
  db.find? (fun t => t.id = transaction_id)

/-- `transaction.save()`: replace every row carrying the saved row's id. -/
def dbSave (db : List Transaction) (t : Transaction) : List Transaction :=
  db.map (fun r => if r.id = t.id then t else r)

/-- Apply, in order, the database saves occurring in an effect trace. -/
def applySaves (db : List Transaction) (effects : List Effect) : List Transaction :=
  effects.foldl (fun acc e => match e with | .save t => dbSave acc t | _ => acc) db

/-- Python's `round(x, 7)` on an exact rational: scale by 10^7, round
half to even (banker's rounding, Python's tie rule) using floor division
on the numerator, and scale back. -/
def pyRound7 (q : ℚ) : ℚ :=
  let n := q.num * 10000000
  let d : ℤ := (q.den : ℤ)
  let f := Int.fdiv n d
  let r := n - f * d
  let z : ℤ :=
    if 2 * r < d then f
    else if d < 2 * r then f + 1
    else if f % 2 = 0 then f else f + 1
  (z : ℚ) / 10000000

/-- The one-operation envelope built and signed by
`perform_standard_payment`: a payment from the distribution account
(the builder's implicit source) to the destination account. -/
def standardPaymentEnvelope (env : Env) (transaction : Transaction)
    (payment_amount : ℚ) : Envelope :=
  { operations := [LedgerOp.payment none transaction.stellar_account
      transaction.asset.code transaction.asset.issuer payment_amount],
    signatures := [env.settings.STELLAR_DISTRIBUTION_ACCOUNT_SEED] }

/-- `perform_standard_payment` from deposit/tasks.py: build and submit the
payment; on a response whose `result_xdr` is not `SUCCESS_XDR`, log and
return without touching the record; on the success code, mark the record
completed and save it.  A `HorizonError` raised by `submit()` is not
caught here and propagates to the caller. -/
def perform_standard_payment (env : Env) (transaction : Transaction)
    (payment_amount : ℚ) : HelperResult :=
  let envl := standardPaymentEnvelope env transaction payment_amount
  match env.paymentSubmit with
  | .horizonError sc msg =>
      { transaction := transaction,
        effects := [.ledgerSubmit envl],
        outcome := .raised (.horizonError sc msg) }
  | .response r =>
      if r.result_xdr ≠ SUCCESS_XDR then
        { transaction := transaction,
          effects := [.ledgerSubmit envl],
          outcome := .ok }
      else
        let t2 : Transaction :=
          { transaction with
            stellar_transaction_id := some r.hash,
            status := Status.completed,
            completed_at := some env.nowTime,
            status_eta := 0,
            amount_out := some payment_amount }
        { transaction := t2,
          effects := [.ledgerSubmit envl, .save t2],
          outcome := .ok }

/-- The four-operation envelope built by `create_claimable_account`:
create the fresh intermediate account with the literal starting balance
"40", establish trust for the transaction's asset on it, pay the computed
amount from the distribution account to it, and zero the intermediate
master weight while granting the destination key signer weight 1; signed
by the distribution seed and then the intermediate seed. -/
def claimableEnvelope (env : Env) (transaction : Transaction)
    (payment_amount : ℚ) : Envelope :=
  { operations :=
      [LedgerOp.create_account env.intermediateKey "40" env.anchorAddress,
       LedgerOp.change_trust transaction.asset.code transaction.asset.issuer
         env.intermediateKey,
       LedgerOp.payment (some env.anchorAddress) env.intermediateKey
         transaction.asset.code transaction.asset.issuer payment_amount,
       LedgerOp.set_options env.intermediateKey 0 transaction.stellar_account 1
         "ed25519PublicKey"],
    signatures := [env.settings.STELLAR_DISTRIBUTION_ACCOUNT_SEED,
                   env.intermediateSeed] }

set_option linter.unusedVariables false in
/-- `create_claimable_account` from deposit/tasks.py.  The
`requires_account_creation` parameter is accepted but never read (it is
mentioned only in a comment of the source).  On a `HorizonError` from
`submit()` the function logs and returns.  On a successful submission the
next statement reads the name `response`, which is never bound in this
function (the result of `builder.submit()` is discarded), so the run
raises `NameError` before any field assignment; consequently no field of
the record is ever changed and `save()` is never called on either path. -/
def create_claimable_account (env : Env) (transaction : Transaction)
    (payment_amount : ℚ) (requires_account_creation : Bool := true) : HelperResult :=
  let envl := claimableEnvelope env transaction payment_amount
  let buildPrints : List Effect :=
    [.print (">>>> Generated random account " ++ env.intermediateKey),
     .print (">>>> Distribution account " ++ env.anchorAddress),
     .print ">>>> create_account_op",
     .print ">>>> change_trust",
     .print ">>>> payment",
     .print ">>>> set_options"]
  match env.claimableSubmit with
  | .horizonError sc msg =>
      { transaction := transaction,
        effects := buildPrints ++
          [.ledgerSubmit envl,
           .print ">>>> Something went wrong!!!!! ",
           .printErr sc msg],
        outcome := .ok }
  | .response _ =>
      { transaction := transaction,
        effects := buildPrints ++
          [.ledgerSubmit envl,
           .print (">>>>> Submitted intermediate account " ++ env.intermediateKey)],
        outcome := .raised .nameError }

/-- `perform_no_trust_payment` from deposit/tasks.py: delegate to
`create_claimable_account` with `requires_account_creation = False`. -/
def perform_no_trust_payment (env : Env) (transaction : Transaction)
    (payment_amount : ℚ) : HelperResult :=
  create_claimable_account env transaction payment_amount false

/-- The Celery task `create_stellar_deposit(transaction_id)` from
deposit/tasks.py.  Fetch the row; return at once unless the status is
`pending_anchor` or `pending_trust`; otherwise set the status to
`pending_stellar` and save, compute the payment amount, and attempt the
ledger read.  The `try` block spans the address lookup and both
payment helpers, so a `HorizonError` raised anywhere inside it reaches the
single `except` clause: a non-404 code is re-raised, a 404 routes to
`create_claimable_account`. -/
def create_stellar_deposit (env : Env) (db : List Transaction)
    (transaction_id : Nat) : RunState :=
  match dbGet db transaction_id with
  | none => { db := db, effects := [], outcome := .raised .doesNotExist }
  | some transaction =>
    if transaction.status ∉ [Status.pending_anchor, Status.pending_trust] then
      { db := db, effects := [], outcome := .ok }
    else
      let t1 : Transaction := { transaction with status := Status.pending_stellar }
      let payment_amount := pyRound7 (transaction.amount_in - transaction.amount_fee)
      let tryResult : HelperResult :=
        match env.addressGet with
        | .horizonError sc msg =>
            { transaction := t1,
              effects := [.ledgerRead t1.stellar_account],
              outcome := .raised (.horizonError sc msg) }
        | .found balances =>
            let trustlines := balances.filter (fun b =>
              b.asset_code = some transaction.asset.code ∧
              b.asset_issuer = some transaction.asset.issuer)
            let readEffects : List Effect :=
              [.ledgerRead t1.stellar_account, .printBalances balances]
            if trustlines.length = 0 then
              let h := perform_no_trust_payment env t1 payment_amount
              { h with effects :=
                  readEffects ++ [.print ">>>>> NO TRUST PAYMENT"] ++ h.effects }
            else
              let h := perform_standard_payment env t1 payment_amount
              { h with effects :=
                  readEffects ++ [.print ">>>> Standard payment"] ++ h.effects }
      let handled : HelperResult :=
        match tryResult.outcome with
        | .raised (.horizonError sc msg) =>
            if sc ≠ 404 then
              { tryResult with outcome := .raised (.horizonError sc msg) }
            else
              let h := create_claimable_account env tryResult.transaction payment_amount
              { transaction := h.transaction,
                effects := tryResult.effects ++
                  [.print ">>>> New account payment"] ++ h.effects,
                outcome := h.outcome }
        | _ => tryResult
      let allEffects := Effect.save t1 :: handled.effects
      { db := applySaves db allEffects,
        effects := allEffects,
        outcome := handled.outcome }

/-- The dictionary returned by `horizon.account(...)`: the task only reads
its `balances` key, whose absence raises `KeyError` (modelled as `none`). -/
structure HorizonAccount where
  balances : Option (List Balance)
deriving DecidableEq, Repr

/-- What a call to `horizon.account(address)` does in `check_trustlines`:
either it returns the account dictionary, or it raises `StellarError` or
`HorizonError` (both caught by the task). -/
inductive HorizonAccountResult
  | account (a : HorizonAccount)
  | stellarError (message : String)
deriving DecidableEq, Repr

/-- The external world of one `check_trustlines` run: the account state
Horizon reports for each address, and the `Env` each nested
`create_stellar_deposit(transaction.id)` invocation runs under. -/
structure CheckEnv where
  horizonAccount : String → HorizonAccountResult
  envOf : Nat → Env

/-- Result of a `check_trustlines` run: the database afterwards, and the
ids passed to `create_stellar_deposit`, in invocation order. -/
structure CheckResult where
  db : List Transaction
  invoked : List Nat

/-- The inner loop of `check_trustlines` over one account's balances: for
each balance, read its `asset_code` (skipping on `KeyError`) and, when it
equals the transaction's asset code, invoke `create_stellar_deposit` on
the transaction's id. -/
def scanBalances (cenv : CheckEnv) (t : Transaction) (balances : List Balance)
    (acc : CheckResult) : CheckResult :=
  balances.foldl (fun acc b =>
    match b.asset_code with
    | none => acc
    | some asset_code =>
        if asset_code = t.asset.code then
          { db := (create_stellar_deposit (cenv.envOf t.id) acc.db t.id).db,
            invoked := acc.invoked ++ [t.id] }
        else acc) acc

/-- One iteration of the `check_trustlines` loop body for a fetched
transaction: on a Horizon read error, or a response without a `balances`
key, skip; otherwise scan the balances. -/
def checkTrustlinesStep (cenv : CheckEnv) (acc : CheckResult)
    (t : Transaction) : CheckResult :=
  match cenv.horizonAccount t.stellar_account with
  | .stellarError _ => acc
  | .account a =>
      match a.balances with
      | none => acc
      | some balances => scanBalances cenv t balances acc

/-- The periodic task `check_trustlines` from deposit/tasks.py: take the
queryset of rows whose status is `pending_trust` and run the loop body on
each. -/
def check_trustlines (cenv : CheckEnv) (db : List Transaction) : CheckResult :=
  (db.filter (fun t => t.status = Status.pending_trust)).foldl
    (checkTrustlinesStep cenv) { db := db, invoked := [] }

/-
Interleaving model of the entry guard (deposit/tasks.py lines 25-41) for
the concurrency claim.  Two worker tasks run `create_stellar_deposit` on
the same row.  Each Django ORM call is one atomic database step:
step 0 reads the row's status (`Transaction.objects.get`), step 1
evaluates the guard on the value read and, when it passes, writes
`pending_stellar` back (`transaction.save()`) and proceeds into the
ledger-I/O region of the task, which on the settlement paths performs a
`builder.submit()`; `submitted` records that the task reached that region.
-/

/-- The program counter and local state of one worker task running the
guarded entry point. -/
structure TaskState where
  pc : Nat
  localStatus : Option Status
  submitted : Bool
deriving DecidableEq, Repr

/-- A worker that has not started. -/
def initTask : TaskState := { pc := 0, localStatus := none, submitted := false }

/-- One atomic step of a worker: read the shared status, or evaluate the
guard on the value read and (when it passes) write `pending_stellar` and
enter the submission region. -/
def stepTask (shared : Status) (ts : TaskState) : Status × TaskState :=
  match ts.pc with
  | 0 => (shared, { ts with pc := 1, localStatus := some shared })
  | 1 =>
      match ts.localStatus with
      | some s =>
          if s = Status.pending_anchor ∨ s = Status.pending_trust then
            (Status.pending_stellar, { ts with pc := 2, submitted := true })
          else (shared, { ts with pc := 2 })
      | none => (shared, { ts with pc := 2 })
  | _ => (shared, ts)

/-- The shared row status and the two workers. -/
structure SysState where
  shared : Status
  a : TaskState
  b : TaskState
deriving DecidableEq, Repr

/-- Let worker `a` (when `who` is true) or worker `b` take one step. -/
def stepSys (s : SysState) (who : Bool) : SysState :=
  if who then
    let (sh, ts) := stepTask s.shared s.a
    { s with shared := sh, a := ts }
  else
    let (sh, ts) := stepTask s.shared s.b
    { s with shared := sh, b := ts }

/-- Run a schedule: a list telling, at each step, which worker moves. -/
def runSched (s : SysState) (sched : List Bool) : SysState :=
  sched.foldl stepSys s

/-- How many of the two workers reached the ledger-submission region. -/
def submissions (s : SysState) : Nat :=
  (if s.a.submitted then 1 else 0) + (if s.b.submitted then 1 else 0)

/-- Both workers poised on the same `pending_anchor` row. -/
def initSys : SysState :=
  { shared := Status.pending_anchor, a := initTask, b := initTask }

/-
Concrete fixtures used by counterexamples and witnesses.
-/

/-- Fixture: the asset of the concrete test transaction. -/
def usd : Asset := { code := "USD", issuer := "GISSUER" }

/-- Fixture: a balance entry carrying a trustline for `usd`. -/
def usdBalance : Balance := { asset_code := some "USD", asset_issuer := some "GISSUER" }

/-- Fixture: concrete Django settings. -/
def settings0 : Settings :=
  { STELLAR_DISTRIBUTION_ACCOUNT_SEED := "SDISTSEED",
    ACCOUNT_STARTING_BALANCE := "41" }

/-- Fixture: a deposit of 20.0000000 USD with zero fee, confirmed by the
anchor and awaiting settlement. -/
def tx0 : Transaction :=
  { id := 1, stellar_account := "GDEST", asset := usd,
    amount_in := 20, amount_fee := 0, amount_out := none,
    status := Status.pending_anchor,
    stellar_transaction_id := none, completed_at := none, status_eta := 3600 }

/-- Fixture: a run environment in which the destination account exists
with a matching trustline and every submission returns the canonical
success code. -/
def baseEnv : Env :=
  { settings := settings0, anchorAddress := "GANCHOR",
    intermediateKey := "GINTERMEDIATE", intermediateSeed := "SINTERMEDIATE",
    nowTime := 1700000000,
    addressGet := AddressGetResult.found [usdBalance],
    paymentSubmit := SubmitResult.response { result_xdr := SUCCESS_XDR, hash := "TXHASH" },
    claimableSubmit := SubmitResult.response { result_xdr := SUCCESS_XDR, hash := "TXHASH" } }

/-- Fixture for C1: a database whose only row is already completed. -/
def c1_db : List Transaction := [{ tx0 with status := Status.completed }]

/-- Fixture for C3: the standard-payment submission is rejected with the
canonical trust-missing failure code. -/
def c3_env : Env :=
  { baseEnv with paymentSubmit := SubmitResult.horizonError 400 TRUSTLINE_FAILURE_XDR }

/-- Fixture for C5: the destination account lookup reports not-found. -/
def c5_env : Env :=
  { baseEnv with addressGet := AddressGetResult.horizonError 404 "get failed" }

/-- Fixture for C7: a transaction parked waiting on a trustline. -/
def c7_row : Transaction := { tx0 with status := Status.pending_trust }

/-- Fixture for C7: the parked row next to an already-completed row. -/
def c7_db : List Transaction :=
  [c7_row, { tx0 with id := 2, status := Status.completed }]

/-- Fixture for C7: Horizon now reports a matching trustline for every
account, and nested settlement runs see `baseEnv`. -/
def c7_cenv : CheckEnv :=
  { horizonAccount := fun _ => HorizonAccountResult.account { balances := some [usdBalance] },
    envOf := fun _ => baseEnv }

/-
Shared lemmas about the database model.
-/

/-- A row returned by `dbGet db i` carries the id `i`. -/
theorem dbGet_id (db : List Transaction) (i : Nat) (t : Transaction)
    (h : dbGet db i = some t) : t.id = i := by
  have := List.find?_some h
  simpa using this

/-- Saving a row does not change lookups of a different id. -/
theorem dbGet_dbSave_ne (db : List Transaction) (t : Transaction) (i : Nat)
    (h : t.id ≠ i) : dbGet (dbSave db t) i = dbGet db i := by
  induction db with
  | nil => rfl
  | cons r rest ih =>
      simp only [dbSave, List.map_cons, dbGet, List.find?_cons] at ih ⊢
      by_cases hr : r.id = t.id
      · have h1 : (decide (t.id = i)) = false := decide_eq_false h
        have h2 : (decide (r.id = i)) = false := by
          rw [hr] ; exact h1
        simp only [if_pos hr, h1, h2]
        exact ih
      · simp only [if_neg hr]
        by_cases hri : r.id = i
        · simp only [decide_eq_true hri]
        · simp only [decide_eq_false hri]
          exact ih

/-- Saving a row whose id resolves makes the lookup of that id return the
saved row. -/
theorem dbGet_dbSave_self (db : List Transaction) (t : Transaction) (i : Nat)
    (r : Transaction) (hget : dbGet db i = some r) (hid : t.id = i) :
    dbGet (dbSave db t) i = some t := by
  induction db with
  | nil => simp [dbGet] at hget
  | cons a rest ih =>
      simp only [dbGet, List.find?_cons, dbSave, List.map_cons] at hget ih ⊢
      by_cases ha : a.id = i
      · have hat : a.id = t.id := by rw [ha, hid]
        simp only [if_pos hat, decide_eq_true hid]
      · have hat : ¬ a.id = t.id := by
          rw [hid] ; exact ha
        simp only [decide_eq_false ha] at hget
        simp only [if_neg hat, decide_eq_false ha]
        exact ih hget

/-- The entry guard: the task is a strict no-op on any status other than
`pending_anchor` or `pending_trust`. -/
theorem run_noop_of_bad_status (env : Env) (db : List Transaction)
    (transaction_id : Nat) (t : Transaction)
    (hget : dbGet db transaction_id = some t)
    (h1 : t.status ≠ Status.pending_anchor) (h2 : t.status ≠ Status.pending_trust) :
    create_stellar_deposit env db transaction_id =
      { db := db, effects := [], outcome := RunOutcome.ok } := by
  unfold create_stellar_deposit
  rw [hget]
  simp [h1, h2]

/-
Claim theorems.
-/

/-- C1: for every transaction whose status is neither `pending_anchor` nor
`pending_trust`, `create_stellar_deposit` is a strict no-op: the database
(hence every field of the record) is unchanged, the effect trace is empty
(no save, no ledger read, no submission), and the task returns normally. -/
theorem c1_entry_guard_strict_noop (env : Env) (db : List Transaction)
    (transaction_id : Nat) (t : Transaction)
    (hget : dbGet db transaction_id = some t)
    (h1 : t.status ≠ Status.pending_anchor) (h2 : t.status ≠ Status.pending_trust) :
    create_stellar_deposit env db transaction_id =
      { db := db, effects := [], outcome := RunOutcome.ok } :=
  run_noop_of_bad_status env db transaction_id t hget h1 h2

/-- Witness for C1 at a concrete completed transaction. -/
theorem c1_entry_guard_strict_noop_witness :
    (dbGet c1_db 1 = some { tx0 with status := Status.completed } ∧
     ({ tx0 with status := Status.completed } : Transaction).status ≠ Status.pending_anchor ∧
     ({ tx0 with status := Status.completed } : Transaction).status ≠ Status.pending_trust) ∧
    create_stellar_deposit baseEnv c1_db 1 =
      { db := c1_db, effects := [], outcome := RunOutcome.ok } :=
  ⟨⟨by decide, by decide, by decide⟩,
   c1_entry_guard_strict_noop baseEnv c1_db 1 { tx0 with status := Status.completed }
     (by decide) (by decide) (by decide)⟩

/-- C8: both the escrow (no-trust) strategy and the bootstrap strategy run
`create_claimable_account`, whose built envelope consists of exactly the
four operations create-account (fixed starting reserve "40"),
change-trust for the transaction's asset on the intermediate account,
payment from the distribution account to the intermediate account for the
computed amount, and set-options zeroing the intermediate master weight
and granting the destination key signer weight 1; it is signed by the
distribution seed and the intermediate seed, the flag distinguishing the
two call sites has no effect, and the envelope is submitted on every
path. -/
theorem c8_escrow_and_bootstrap_envelopes (env : Env) (t : Transaction) (pay : ℚ) :
    claimableEnvelope env t pay =
      { operations :=
          [LedgerOp.create_account env.intermediateKey "40" env.anchorAddress,
           LedgerOp.change_trust t.asset.code t.asset.issuer env.intermediateKey,
           LedgerOp.payment (some env.anchorAddress) env.intermediateKey
             t.asset.code t.asset.issuer pay,
           LedgerOp.set_options env.intermediateKey 0 t.stellar_account 1
             "ed25519PublicKey"],
        signatures := [env.settings.STELLAR_DISTRIBUTION_ACCOUNT_SEED,
                       env.intermediateSeed] } ∧
    (∀ b : Bool, create_claimable_account env t pay b =
        create_claimable_account env t pay true) ∧
    perform_no_trust_payment env t pay = create_claimable_account env t pay true ∧
    (∀ b : Bool, Effect.ledgerSubmit (claimableEnvelope env t pay) ∈
        (create_claimable_account env t pay b).effects) := by
  refine ⟨rfl, fun b => rfl, rfl, fun b => ?_⟩
  cases h : env.claimableSubmit with
  | response r => simp [create_claimable_account, h]
  | horizonError sc msg => simp [create_claimable_account, h]

/-- C9 counterexample: the guard's status read and its save are separate
database steps, so the interleaving in which both concurrent calls read
`pending_anchor` before either saves lets both pass the guard: two ledger
submissions happen, not one. -/
theorem c9_interleaving_two_submissions :
    submissions (runSched initSys [true, false, true, false]) = 2 ∧
    submissions (runSched initSys [true, false, true, false]) ≠ 1 := by
  constructor
  · decide
  · decide

/-- C9 amended: when the two calls are serialized — one call's status read
and save both complete before the other call's read — exactly one of the
two callers reaches the ledger-submission region; the check-then-save
guard is sequential, not atomic, so this holds only for serialized
schedules. -/
theorem c9_serialized_single_submission :
    submissions (runSched initSys [true, true, false, false]) = 1 ∧
    submissions (runSched initSys [false, false, true, true]) = 1 := by
  constructor
  · decide
  · decide

/-- C10: every call to `create_claimable_account` (reached from both the
bootstrap and the escrow call sites) leaves the in-memory record
untouched, performs no save effect (so it persists nothing into any
database), returns normally when the submission raises `HorizonError`,
and raises `NameError` on the unbound name `response` when the submission
succeeds. -/
theorem c10_claimable_account_never_persists (env : Env) (t : Transaction)
    (pay : ℚ) (b : Bool) :
    (create_claimable_account env t pay b).transaction = t ∧
    ((create_claimable_account env t pay b).effects.all
        (fun e => match e with | Effect.save _ => false | _ => true)) = true ∧
    (∀ db : List Transaction,
        applySaves db (create_claimable_account env t pay b).effects = db) ∧
    (create_claimable_account env t pay b).outcome =
      (match env.claimableSubmit with
       | SubmitResult.horizonError _ _ => RunOutcome.ok
       | SubmitResult.response _ => RunOutcome.raised PyError.nameError) := by
  cases h : env.claimableSubmit with
  | response r =>
      refine ⟨?_, ?_, ?_, ?_⟩ <;>
        simp [create_claimable_account, h, applySaves]
  | horizonError sc msg =>
      refine ⟨?_, ?_, ?_, ?_⟩ <;>
        simp [create_claimable_account, h, applySaves]

/-- C3 evaluated at the failing input: for a pending_anchor deposit to an
existing account with a matching trustline, a standard-payment submission
rejected with the canonical trust-missing failure code propagates as an
uncaught `HorizonError` (the module defines `TRUSTLINE_FAILURE_XDR` but
never consults it), so the persisted status stays `pending_stellar` —
never `pending_trust` — and amount_out stays unset. -/
theorem c3_trust_failure_never_sets_pending_trust :
    (create_stellar_deposit c3_env [tx0] 1).outcome =
      RunOutcome.raised (PyError.horizonError 400 TRUSTLINE_FAILURE_XDR) ∧
    dbGet (create_stellar_deposit c3_env [tx0] 1).db 1 =
      some { tx0 with status := Status.pending_stellar } ∧
    (dbGet (create_stellar_deposit c3_env [tx0] 1).db 1).map Transaction.status ≠
      some Status.pending_trust ∧
    ({ tx0 with status := Status.pending_stellar } : Transaction).amount_out = none := by
  refine ⟨?_, ?_, ?_, ?_⟩ <;> decide

/-- C5 counterexample: with the destination account lookup reporting
not-found and the bootstrap submission succeeding, the run raises
`NameError` on the unbound name `response` and the persisted status is
`pending_stellar`, not `pending_user`. -/
theorem c5_bootstrap_success_is_not_pending_user :
    (create_stellar_deposit c5_env [tx0] 1).outcome =
      RunOutcome.raised PyError.nameError ∧
    dbGet (create_stellar_deposit c5_env [tx0] 1).db 1 =
      some { tx0 with status := Status.pending_stellar } ∧
    (dbGet (create_stellar_deposit c5_env [tx0] 1).db 1).map Transaction.status ≠
      some Status.pending_user := by
  refine ⟨?_, ?_, ?_⟩ <;> decide

/-- A status passing the entry guard is a member of the guard list. -/
theorem guard_mem (t : Transaction)
    (hguard : t.status = Status.pending_anchor ∨ t.status = Status.pending_trust) :
    t.status ∈ [Status.pending_anchor, Status.pending_trust] := by
  rcases hguard with h | h <;> simp [h]

/-- C5 amended: on the not-found (404) path, the only persisted change is
the entry's advancement to `pending_stellar`; if the bootstrap submission
fails the run returns normally, and if it succeeds the run raises
`NameError` on the unbound name `response` before updating any field, so
the status never becomes `pending_user` in either case. -/
theorem c5_amended_not_found_path (env : Env) (db : List Transaction)
    (transaction_id : Nat) (t : Transaction) (msg : String)
    (hget : dbGet db transaction_id = some t)
    (hguard : t.status = Status.pending_anchor ∨ t.status = Status.pending_trust)
    (h404 : env.addressGet = AddressGetResult.horizonError 404 msg) :
    dbGet (create_stellar_deposit env db transaction_id).db transaction_id =
      some { t with status := Status.pending_stellar } ∧
    (create_stellar_deposit env db transaction_id).outcome =
      (match env.claimableSubmit with
       | SubmitResult.horizonError _ _ => RunOutcome.ok
       | SubmitResult.response _ => RunOutcome.raised PyError.nameError) := by
  have hid : ({ t with status := Status.pending_stellar } : Transaction).id =
      transaction_id := dbGet_id db transaction_id t hget
  unfold create_stellar_deposit
  rw [hget]
  dsimp only
  rw [if_neg (not_not_intro (guard_mem t hguard))]
  rw [h404]
  dsimp only
  cases hc : env.claimableSubmit with
  | horizonError sc m =>
      constructor
      · simp only [perform_no_trust_payment, create_claimable_account, hc,
          applySaves, List.foldl]
        exact dbGet_dbSave_self db _ transaction_id t hget hid
      · simp [create_claimable_account, hc]
  | response r =>
      constructor
      · simp only [perform_no_trust_payment, create_claimable_account, hc,
          applySaves, List.foldl]
        exact dbGet_dbSave_self db _ transaction_id t hget hid
      · simp [create_claimable_account, hc]

/-- Witness for the amended C5 at the concrete not-found fixture. -/
theorem c5_amended_not_found_path_witness :
    (dbGet [tx0] 1 = some tx0 ∧
     (tx0.status = Status.pending_anchor ∨ tx0.status = Status.pending_trust) ∧
     c5_env.addressGet = AddressGetResult.horizonError 404 "get failed") ∧
    dbGet (create_stellar_deposit c5_env [tx0] 1).db 1 =
      some { tx0 with status := Status.pending_stellar } :=
  ⟨⟨by decide, Or.inl (by decide), rfl⟩,
   (c5_amended_not_found_path c5_env [tx0] 1 tx0 "get failed" (by decide)
      (Or.inl (by decide)) rfl).1⟩

/-- C4: in a standard-payment run whose submission returns a response, the
record is marked completed — ledger transaction id set from the response
hash, completed timestamp set, status-eta zeroed, amount_out set to the
computed payment amount, and a save effect performed — exactly when the
response's `result_xdr` equals the canonical success signature; for any
other response the record and the database are untouched (the only effect
is the submission itself). -/
theorem c4_standard_payment_completed_iff_success (env : Env) (t : Transaction)
    (pay : ℚ) (r : SubmitResponse)
    (hr : env.paymentSubmit = SubmitResult.response r)
    (ht : t.status ≠ Status.completed) :
    ((perform_standard_payment env t pay).transaction.status = Status.completed ↔
       r.result_xdr = SUCCESS_XDR) ∧
    (r.result_xdr = SUCCESS_XDR →
       (perform_standard_payment env t pay).transaction =
         { t with
           stellar_transaction_id := some r.hash,
           status := Status.completed,
           completed_at := some env.nowTime,
           status_eta := 0,
           amount_out := some pay } ∧
       (perform_standard_payment env t pay).effects =
         [Effect.ledgerSubmit (standardPaymentEnvelope env t pay),
          Effect.save ((perform_standard_payment env t pay).transaction)]) ∧
    (r.result_xdr ≠ SUCCESS_XDR →
       (perform_standard_payment env t pay).transaction = t ∧
       (perform_standard_payment env t pay).effects =
         [Effect.ledgerSubmit (standardPaymentEnvelope env t pay)] ∧
       (∀ db : List Transaction,
          applySaves db (perform_standard_payment env t pay).effects = db)) := by
  by_cases hx : r.result_xdr = SUCCESS_XDR
  · simp [perform_standard_payment, hr, hx]
  · simp [perform_standard_payment, hr, hx, ht, applySaves]

/-- Witness for C4 at the concrete success-response fixture. -/
theorem c4_standard_payment_completed_iff_success_witness :
    (baseEnv.paymentSubmit =
       SubmitResult.response { result_xdr := SUCCESS_XDR, hash := "TXHASH" } ∧
     ({ tx0 with status := Status.pending_stellar } : Transaction).status ≠
       Status.completed) ∧
    (perform_standard_payment baseEnv { tx0 with status := Status.pending_stellar }
        20).transaction.status = Status.completed :=
  ⟨⟨rfl, by decide⟩,
   (c4_standard_payment_completed_iff_success baseEnv
      { tx0 with status := Status.pending_stellar } 20
      { result_xdr := SUCCESS_XDR, hash := "TXHASH" } rfl (by decide)).1.mpr rfl⟩

/-- Shape of the database after a guard-passing run: either only the
entry's advancement to `pending_stellar` was saved, or additionally the
completed record of a successful standard payment. -/
theorem run_db_shape (env : Env) (db : List Transaction) (transaction_id : Nat)
    (t : Transaction) (hget : dbGet db transaction_id = some t)
    (hguard : t.status = Status.pending_anchor ∨ t.status = Status.pending_trust) :
    (create_stellar_deposit env db transaction_id).db =
      dbSave db { t with status := Status.pending_stellar } ∨
    (∃ r : SubmitResponse, env.paymentSubmit = SubmitResult.response r ∧
      r.result_xdr = SUCCESS_XDR ∧
      (create_stellar_deposit env db transaction_id).db =
        dbSave (dbSave db { t with status := Status.pending_stellar })
          { t with
            stellar_transaction_id := some r.hash,
            status := Status.completed,
            completed_at := some env.nowTime,
            status_eta := 0,
            amount_out := some (pyRound7 (t.amount_in - t.amount_fee)) }) := by
  unfold create_stellar_deposit
  rw [hget]
  dsimp only
  rw [if_neg (not_not_intro (guard_mem t hguard))]
  cases hA : env.addressGet with
  | horizonError sc msg =>
      dsimp only
      by_cases hsc : sc = 404
      · subst hsc
        cases hc : env.claimableSubmit with
        | horizonError sc2 m2 =>
            left
            simp [create_claimable_account, hc, applySaves]
        | response r2 =>
            left
            simp [create_claimable_account, hc, applySaves]
      · left
        simp [hsc, applySaves]
  | found balances =>
      dsimp only
      by_cases hlen :
          (List.filter (fun b =>
            decide (b.asset_code = some t.asset.code ∧
              b.asset_issuer = some t.asset.issuer)) balances).length = 0
      · rw [if_pos hlen]
        cases hc : env.claimableSubmit with
        | horizonError sc2 m2 =>
            left
            simp [perform_no_trust_payment, create_claimable_account, hc, applySaves]
        | response r2 =>
            left
            simp [perform_no_trust_payment, create_claimable_account, hc, applySaves]
      · rw [if_neg hlen]
        cases hp : env.paymentSubmit with
        | horizonError sc m =>
            by_cases hsc : sc = 404
            · subst hsc
              cases hc : env.claimableSubmit with
              | horizonError sc2 m2 =>
                  left
                  simp [perform_standard_payment, hp, create_claimable_account, hc,
                    applySaves]
              | response r2 =>
                  left
                  simp [perform_standard_payment, hp, create_claimable_account, hc,
                    applySaves]
            · left
              simp [perform_standard_payment, hp, hsc, applySaves]
        | response r =>
            by_cases hx : r.result_xdr = SUCCESS_XDR
            · right
              refine ⟨r, rfl, hx, ?_⟩
              simp [perform_standard_payment, hp, hx, applySaves]
            · left
              simp [perform_standard_payment, hp, hx, applySaves]

/-- C6: a run never persists any value of amount_out other than
amount_in minus the fee rounded to 7 decimal places: every persisted row
either keeps its previous amount_out or carries exactly
`pyRound7 (amount_in - amount_fee)`; a row persisted as completed by a run
that found it not yet completed carries exactly that value; and once the
record is completed the entry guard makes every later run a strict no-op,
so the value is never recomputed. -/
theorem c6_amount_out_in_minus_fee_rounded (env : Env) (db : List Transaction)
    (transaction_id : Nat) (t : Transaction)
    (hget : dbGet db transaction_id = some t) :
    (∀ t2, dbGet (create_stellar_deposit env db transaction_id).db transaction_id =
        some t2 →
      (t2.amount_out = t.amount_out ∨
       t2.amount_out = some (pyRound7 (t.amount_in - t.amount_fee))) ∧
      (t2.status = Status.completed → t.status ≠ Status.completed →
       t2.amount_out = some (pyRound7 (t.amount_in - t.amount_fee)))) ∧
    (t.status = Status.completed →
      create_stellar_deposit env db transaction_id =
        { db := db, effects := [], outcome := RunOutcome.ok }) := by
  have hid : t.id = transaction_id := dbGet_id db transaction_id t hget
  constructor
  · intro t2 h2
    by_cases hguard : t.status = Status.pending_anchor ∨ t.status = Status.pending_trust
    · rcases run_db_shape env db transaction_id t hget hguard with h | ⟨r, hr, hx, h⟩
      · rw [h] at h2
        rw [dbGet_dbSave_self db { t with status := Status.pending_stellar }
          transaction_id t hget hid] at h2
        cases h2
        exact ⟨Or.inl rfl, fun hc _ => by simp at hc⟩
      · rw [h] at h2
        have h1 := dbGet_dbSave_self db { t with status := Status.pending_stellar }
          transaction_id t hget hid
        rw [dbGet_dbSave_self (dbSave db { t with status := Status.pending_stellar })
          { t with
            stellar_transaction_id := some r.hash,
            status := Status.completed,
            completed_at := some env.nowTime,
            status_eta := 0,
            amount_out := some (pyRound7 (t.amount_in - t.amount_fee)) }
          transaction_id { t with status := Status.pending_stellar } h1 hid] at h2
        cases h2
        exact ⟨Or.inr rfl, fun _ _ => rfl⟩
    · push_neg at hguard
      rw [run_noop_of_bad_status env db transaction_id t hget hguard.1 hguard.2] at h2
      rw [hget] at h2
      cases h2
      refine ⟨Or.inl rfl, fun hc hnc => absurd hc hnc⟩
  · intro hcomp
    exact run_noop_of_bad_status env db transaction_id t hget
      (by rw [hcomp] ; simp) (by rw [hcomp] ; simp)

/-- Witness for C6: in the concrete success run the persisted completed
row carries amount_out = 20.0000000 = round7(20 - 0). -/
theorem c6_amount_out_in_minus_fee_rounded_witness :
    (dbGet [tx0] 1 = some tx0) ∧
    (({ tx0 with
        stellar_transaction_id := some "TXHASH",
        status := Status.completed,
        completed_at := some 1700000000,
        status_eta := 0,
        amount_out := some (pyRound7 (tx0.amount_in - tx0.amount_fee)) } :
          Transaction).amount_out = tx0.amount_out ∨
     ({ tx0 with
        stellar_transaction_id := some "TXHASH",
        status := Status.completed,
        completed_at := some 1700000000,
        status_eta := 0,
        amount_out := some (pyRound7 (tx0.amount_in - tx0.amount_fee)) } :
          Transaction).amount_out =
          some (pyRound7 (tx0.amount_in - tx0.amount_fee))) :=
  ⟨by decide,
   ((c6_amount_out_in_minus_fee_rounded baseEnv [tx0] 1 tx0 (by decide)).1
      { tx0 with
        stellar_transaction_id := some "TXHASH",
        status := Status.completed,
        completed_at := some 1700000000,
        status_eta := 0,
        amount_out := some (pyRound7 (tx0.amount_in - tx0.amount_fee)) }
      (by rfl)).1⟩

/-- The code's trustline filter is empty exactly when no balance matches
both the asset code and the asset issuer. -/
theorem trustline_filter_empty_iff (t : Transaction) (balances : List Balance) :
    ((List.filter (fun b =>
        decide (b.asset_code = some t.asset.code ∧
          b.asset_issuer = some t.asset.issuer)) balances).length = 0) ↔
      ¬ ∃ b ∈ balances, b.asset_code = some t.asset.code ∧
          b.asset_issuer = some t.asset.issuer := by
  rw [List.length_eq_zero, List.filter_eq_nil_iff]
  simp

/-- C2: in every guard-passing run, a 404 on the account lookup selects
the bootstrap strategy (the new-account branch is traced and the
four-operation claimable envelope is submitted); an existing account with
a balance matching both asset code and asset issuer selects the standard
payment (the standard branch is traced and the one-payment envelope is
submitted); an existing account with no such balance selects the escrow
(no-trust) strategy (the no-trust branch is traced and the claimable
envelope is submitted). -/
theorem c2_funding_strategy_selection (env : Env) (db : List Transaction)
    (transaction_id : Nat) (t : Transaction)
    (hget : dbGet db transaction_id = some t)
    (hguard : t.status = Status.pending_anchor ∨ t.status = Status.pending_trust) :
    (∀ msg, env.addressGet = AddressGetResult.horizonError 404 msg →
       Effect.print ">>>> New account payment" ∈
         (create_stellar_deposit env db transaction_id).effects ∧
       Effect.ledgerSubmit (claimableEnvelope env
           { t with status := Status.pending_stellar }
           (pyRound7 (t.amount_in - t.amount_fee))) ∈
         (create_stellar_deposit env db transaction_id).effects) ∧
    (∀ balances, env.addressGet = AddressGetResult.found balances →
       ((∃ b ∈ balances, b.asset_code = some t.asset.code ∧
           b.asset_issuer = some t.asset.issuer) →
         Effect.print ">>>> Standard payment" ∈
           (create_stellar_deposit env db transaction_id).effects ∧
         Effect.ledgerSubmit (standardPaymentEnvelope env
             { t with status := Status.pending_stellar }
             (pyRound7 (t.amount_in - t.amount_fee))) ∈
           (create_stellar_deposit env db transaction_id).effects) ∧
       ((¬ ∃ b ∈ balances, b.asset_code = some t.asset.code ∧
           b.asset_issuer = some t.asset.issuer) →
         Effect.print ">>>>> NO TRUST PAYMENT" ∈
           (create_stellar_deposit env db transaction_id).effects ∧
         Effect.ledgerSubmit (claimableEnvelope env
             { t with status := Status.pending_stellar }
             (pyRound7 (t.amount_in - t.amount_fee))) ∈
           (create_stellar_deposit env db transaction_id).effects)) := by
  constructor
  · intro msg hA
    unfold create_stellar_deposit
    rw [hget]
    dsimp only
    rw [if_neg (not_not_intro (guard_mem t hguard))]
    rw [hA]
    dsimp only
    cases hc : env.claimableSubmit with
    | horizonError sc2 m2 =>
        constructor <;> simp [create_claimable_account, hc]
    | response r2 =>
        constructor <;> simp [create_claimable_account, hc]
  · intro balances hA
    constructor
    · intro hex
      have hlen : ¬ ((List.filter (fun b =>
          decide (b.asset_code = some t.asset.code ∧
            b.asset_issuer = some t.asset.issuer)) balances).length = 0) := by
        rw [trustline_filter_empty_iff]
        exact not_not_intro hex
      unfold create_stellar_deposit
      rw [hget]
      dsimp only
      rw [if_neg (not_not_intro (guard_mem t hguard))]
      rw [hA]
      dsimp only
      rw [if_neg hlen]
      cases hp : env.paymentSubmit with
      | horizonError sc m =>
          by_cases hsc : sc = 404
          · subst hsc
            constructor <;>
              simp [perform_standard_payment, hp, List.mem_append]
          · constructor <;>
              simp [perform_standard_payment, hp, hsc, List.mem_append]
      | response r =>
          by_cases hx : r.result_xdr = SUCCESS_XDR
          · constructor <;> simp [perform_standard_payment, hp, hx]
          · constructor <;> simp [perform_standard_payment, hp, hx]
    · intro hnex
      have hlen : ((List.filter (fun b =>
          decide (b.asset_code = some t.asset.code ∧
            b.asset_issuer = some t.asset.issuer)) balances).length = 0) := by
        rw [trustline_filter_empty_iff]
        exact hnex
      unfold create_stellar_deposit
      rw [hget]
      dsimp only
      rw [if_neg (not_not_intro (guard_mem t hguard))]
      rw [hA]
      dsimp only
      rw [if_pos hlen]
      cases hc : env.claimableSubmit with
      | horizonError sc2 m2 =>
          constructor <;>
            simp [perform_no_trust_payment, create_claimable_account, hc]
      | response r2 =>
          constructor <;>
            simp [perform_no_trust_payment, create_claimable_account, hc]

/-- Witness for C2 at the concrete matching-trustline fixture: the
standard-payment strategy is selected. -/
theorem c2_funding_strategy_selection_witness :
    (dbGet [tx0] 1 = some tx0 ∧
     (tx0.status = Status.pending_anchor ∨ tx0.status = Status.pending_trust) ∧
     baseEnv.addressGet = AddressGetResult.found [usdBalance] ∧
     (∃ b ∈ [usdBalance], b.asset_code = some tx0.asset.code ∧
        b.asset_issuer = some tx0.asset.issuer)) ∧
    Effect.print ">>>> Standard payment" ∈
      (create_stellar_deposit baseEnv [tx0] 1).effects :=
  ⟨⟨by decide, Or.inl (by decide), rfl, ⟨usdBalance, by decide⟩⟩,
   (((c2_funding_strategy_selection baseEnv [tx0] 1 tx0 (by decide)
        (Or.inl (by decide))).2 [usdBalance] rfl).1
      ⟨usdBalance, by decide⟩).1⟩

/-- A settlement run on one id leaves the lookup of every other id
unchanged. -/
theorem run_preserves_other (env : Env) (db : List Transaction)
    (transaction_id i : Nat) (hne : i ≠ transaction_id) :
    dbGet (create_stellar_deposit env db transaction_id).db i = dbGet db i := by
  cases hget : dbGet db transaction_id with
  | none =>
      unfold create_stellar_deposit
      rw [hget]
  | some t =>
      by_cases hguard :
          t.status = Status.pending_anchor ∨ t.status = Status.pending_trust
      · have hid : t.id = transaction_id := dbGet_id db transaction_id t hget
        have hids : ∀ t2 : Transaction, t2.id = t.id → t2.id ≠ i := by
          intro t2 h2 hh
          exact hne ((h2 ▸ hh : t.id = i) ▸ hid)
        rcases run_db_shape env db transaction_id t hget hguard with h | ⟨r, hr, hx, h⟩
        · rw [h]
          exact dbGet_dbSave_ne db _ i (hids _ rfl)
        · rw [h]
          rw [dbGet_dbSave_ne (dbSave db { t with status := Status.pending_stellar })
            { t with
              stellar_transaction_id := some r.hash,
              status := Status.completed,
              completed_at := some env.nowTime,
              status_eta := 0,
              amount_out := some (pyRound7 (t.amount_in - t.amount_fee)) } i
            (hids _ rfl)]
          exact dbGet_dbSave_ne db _ i (hids _ rfl)
      · push_neg at hguard
        rw [run_noop_of_bad_status env db transaction_id t hget hguard.1 hguard.2]

/-- The inner balance scan preserves lookups of ids other than the
scanned transaction's id. -/
theorem scan_db_preserve (cenv : CheckEnv) (t : Transaction)
    (balances : List Balance) (acc : CheckResult) (i : Nat) (hne : i ≠ t.id) :
    dbGet (scanBalances cenv t balances acc).db i = dbGet acc.db i := by
  induction balances generalizing acc with
  | nil => rfl
  | cons b rest ih =>
      cases hb : b.asset_code with
      | none => simpa [scanBalances, hb] using ih acc
      | some c =>
          by_cases hc : c = t.asset.code
          · have step := ih ({ db := (create_stellar_deposit (cenv.envOf t.id)
                acc.db t.id).db, invoked := acc.invoked ++ [t.id] } : CheckResult)
            have run := run_preserves_other (cenv.envOf t.id) acc.db t.id i hne
            simp only [scanBalances, List.foldl_cons, hb, if_pos hc]
            exact step.trans run
          · simpa [scanBalances, hb, hc] using ih acc

/-- The inner balance scan only grows the invocation list. -/
theorem scan_invoked_mono (cenv : CheckEnv) (t : Transaction)
    (balances : List Balance) (acc : CheckResult) (j : Nat)
    (hj : j ∈ acc.invoked) : j ∈ (scanBalances cenv t balances acc).invoked := by
  induction balances generalizing acc with
  | nil => exact hj
  | cons b rest ih =>
      cases hb : b.asset_code with
      | none => simpa [scanBalances, hb] using ih acc hj
      | some c =>
          by_cases hc : c = t.asset.code
          · simp only [scanBalances, List.foldl_cons, hb, if_pos hc]
            exact ih _ (by simp [hj])
          · simpa [scanBalances, hb, hc] using ih acc hj

/-- Everything the inner balance scan adds to the invocation list is the
scanned transaction's id, and only when some balance matches its asset
code. -/
theorem scan_invoked_sub (cenv : CheckEnv) (t : Transaction)
    (balances : List Balance) (acc : CheckResult) (j : Nat)
    (hj : j ∈ (scanBalances cenv t balances acc).invoked) :
    j ∈ acc.invoked ∨ (j = t.id ∧
      ∃ b ∈ balances, b.asset_code = some t.asset.code) := by
  induction balances generalizing acc with
  | nil => exact Or.inl hj
  | cons b rest ih =>
      cases hb : b.asset_code with
      | none =>
          rcases ih acc (by simpa [scanBalances, hb] using hj) with h | ⟨h1, b2, h2, h3⟩
          · exact Or.inl h
          · exact Or.inr ⟨h1, b2, by simp [h2], h3⟩
      | some c =>
          by_cases hc : c = t.asset.code
          · have hj2 : j ∈ (scanBalances cenv t rest
                { db := (create_stellar_deposit (cenv.envOf t.id) acc.db t.id).db,
                  invoked := acc.invoked ++ [t.id] }).invoked := by
              simpa [scanBalances, hb, hc] using hj
            rcases ih _ hj2 with h | ⟨h1, b2, h2, h3⟩
            · rcases List.mem_append.mp h with h | h
              · exact Or.inl h
              · refine Or.inr ⟨by simpa using h, b, by simp, ?_⟩
                rw [hb, hc]
            · exact Or.inr ⟨h1, b2, by simp [h2], h3⟩
          · rcases ih acc (by simpa [scanBalances, hb, hc] using hj) with
              h | ⟨h1, b2, h2, h3⟩
            · exact Or.inl h
            · exact Or.inr ⟨h1, b2, by simp [h2], h3⟩

/-- When some balance matches the asset code, the scan invokes the
settlement entry point on the transaction's id. -/
theorem scan_invokes (cenv : CheckEnv) (t : Transaction)
    (balances : List Balance) (acc : CheckResult)
    (hex : ∃ b ∈ balances, b.asset_code = some t.asset.code) :
    t.id ∈ (scanBalances cenv t balances acc).invoked := by
  induction balances generalizing acc with
  | nil => simp at hex
  | cons b rest ih =>
      rcases hex with ⟨b2, hb2, hcode⟩
      rcases List.mem_cons.mp hb2 with h | h
      · subst h
        simp only [scanBalances, List.foldl_cons, hcode, if_pos rfl]
        exact scan_invoked_mono cenv t rest _ t.id (by simp)
      · cases hb : b.asset_code with
        | none => simpa [scanBalances, hb] using ih acc ⟨b2, h, hcode⟩
        | some c =>
            by_cases hc : c = t.asset.code
            · simp only [scanBalances, List.foldl_cons, hb, if_pos hc]
              exact scan_invoked_mono cenv t rest _ t.id (by simp)
            · simpa [scanBalances, hb, hc] using ih acc ⟨b2, h, hcode⟩

/-- When no balance matches the asset code, the scan does nothing. -/
theorem scan_skip (cenv : CheckEnv) (t : Transaction)
    (balances : List Balance) (acc : CheckResult)
    (hnex : ¬ ∃ b ∈ balances, b.asset_code = some t.asset.code) :
    scanBalances cenv t balances acc = acc := by
  induction balances generalizing acc with
  | nil => rfl
  | cons b rest ih =>
      cases hb : b.asset_code with
      | none =>
          rw [show scanBalances cenv t (b :: rest) acc =
            scanBalances cenv t rest acc by simp [scanBalances, hb]]
          exact ih acc (fun ⟨b2, h2, h3⟩ => hnex ⟨b2, by simp [h2], h3⟩)
      | some c =>
          have hc : ¬ c = t.asset.code := by
            intro hc
            exact hnex ⟨b, by simp, by rw [hb, hc]⟩
          rw [show scanBalances cenv t (b :: rest) acc =
            scanBalances cenv t rest acc by simp [scanBalances, hb, hc]]
          exact ih acc (fun ⟨b2, h2, h3⟩ => hnex ⟨b2, by simp [h2], h3⟩)

/-- One loop iteration preserves lookups of other ids. -/
theorem step_db_preserve (cenv : CheckEnv) (acc : CheckResult)
    (t : Transaction) (i : Nat) (hne : i ≠ t.id) :
    dbGet (checkTrustlinesStep cenv acc t).db i = dbGet acc.db i := by
  unfold checkTrustlinesStep
  cases cenv.horizonAccount t.stellar_account with
  | stellarError m => rfl
  | account a =>
      dsimp only
      cases a.balances with
      | none => rfl
      | some bs => exact scan_db_preserve cenv t bs acc i hne

/-- One loop iteration only grows the invocation list. -/
theorem step_invoked_mono (cenv : CheckEnv) (acc : CheckResult)
    (t : Transaction) (j : Nat) (hj : j ∈ acc.invoked) :
    j ∈ (checkTrustlinesStep cenv acc t).invoked := by
  unfold checkTrustlinesStep
  cases cenv.horizonAccount t.stellar_account with
  | stellarError m => exact hj
  | account a =>
      dsimp only
      cases a.balances with
      | none => exact hj
      | some bs => exact scan_invoked_mono cenv t bs acc j hj

/-- Everything one loop iteration adds to the invocation list is the
iterated transaction's id, and only when its account was fetched with a
balance matching its asset code. -/
theorem step_invoked_sub (cenv : CheckEnv) (acc : CheckResult)
    (t : Transaction) (j : Nat)
    (hj : j ∈ (checkTrustlinesStep cenv acc t).invoked) :
    j ∈ acc.invoked ∨ (j = t.id ∧
      ∃ a bs, cenv.horizonAccount t.stellar_account = HorizonAccountResult.account a ∧
        a.balances = some bs ∧ ∃ b ∈ bs, b.asset_code = some t.asset.code) := by
  unfold checkTrustlinesStep at hj
  cases ha : cenv.horizonAccount t.stellar_account with
  | stellarError m =>
      rw [ha] at hj
      exact Or.inl hj
  | account a =>
      rw [ha] at hj
      dsimp only at hj
      cases hbs : a.balances with
      | none =>
          rw [hbs] at hj
          exact Or.inl hj
      | some bs =>
          rw [hbs] at hj
          dsimp only at hj
          rcases scan_invoked_sub cenv t bs acc j hj with h | ⟨h1, h2⟩
          · exact Or.inl h
          · exact Or.inr ⟨h1, a, bs, rfl, hbs, h2⟩

/-- A loop iteration whose account read fails, whose response has no
balances, or whose balances never match the asset code, is the identity. -/
theorem step_skip (cenv : CheckEnv) (t : Transaction)
    (hskip : (∃ m, cenv.horizonAccount t.stellar_account =
        HorizonAccountResult.stellarError m) ∨
      (∃ a, cenv.horizonAccount t.stellar_account = HorizonAccountResult.account a ∧
        (a.balances = none ∨ ∃ bs, a.balances = some bs ∧
          ¬ ∃ b ∈ bs, b.asset_code = some t.asset.code))) :
    ∀ acc, checkTrustlinesStep cenv acc t = acc := by
  intro acc
  unfold checkTrustlinesStep
  rcases hskip with ⟨m, hm⟩ | ⟨a, ha, hrest⟩
  · rw [hm]
  · rw [ha]
    dsimp only
    rcases hrest with hnone | ⟨bs, hbs, hnex⟩
    · rw [hnone]
    · rw [hbs]
      exact scan_skip cenv t bs acc hnex

/-- A loop iteration with a fetched balance matching the asset code
invokes the settlement entry point on the transaction's id. -/
theorem step_invokes (cenv : CheckEnv) (acc : CheckResult) (t : Transaction)
    (a : HorizonAccount) (bs : List Balance)
    (ha : cenv.horizonAccount t.stellar_account = HorizonAccountResult.account a)
    (hbs : a.balances = some bs)
    (hex : ∃ b ∈ bs, b.asset_code = some t.asset.code) :
    t.id ∈ (checkTrustlinesStep cenv acc t).invoked := by
  unfold checkTrustlinesStep
  rw [ha]
  dsimp only
  rw [hbs]
  exact scan_invokes cenv t bs acc hex

/-- Folding the loop body over rows that either carry a different id or
whose iteration is the identity preserves lookups of that id. -/
theorem fold_db_preserve (cenv : CheckEnv) (l : List Transaction)
    (acc : CheckResult) (i : Nat)
    (hl : ∀ u ∈ l, u.id ≠ i ∨ (∀ a2, checkTrustlinesStep cenv a2 u = a2)) :
    dbGet (l.foldl (checkTrustlinesStep cenv) acc).db i = dbGet acc.db i := by
  induction l generalizing acc with
  | nil => rfl
  | cons u rest ih =>
      rw [List.foldl_cons]
      rw [ih _ (fun v hv => hl v (List.mem_cons_of_mem u hv))]
      rcases hl u (List.mem_cons_self u rest) with h | h
      · exact step_db_preserve cenv acc u i (fun hi => h hi.symm)
      · rw [h acc]

/-- Folding the loop body only grows the invocation list. -/
theorem fold_invoked_mono (cenv : CheckEnv) (l : List Transaction)
    (acc : CheckResult) (j : Nat) (hj : j ∈ acc.invoked) :
    j ∈ (l.foldl (checkTrustlinesStep cenv) acc).invoked := by
  induction l generalizing acc with
  | nil => exact hj
  | cons u rest ih =>
      rw [List.foldl_cons]
      exact ih _ (step_invoked_mono cenv acc u j hj)

/-- Every id the folded loop invokes comes from one of the folded rows,
whose fetched account carried a balance matching its asset code. -/
theorem fold_invoked_sub (cenv : CheckEnv) (l : List Transaction)
    (acc : CheckResult) (j : Nat)
    (hj : j ∈ (l.foldl (checkTrustlinesStep cenv) acc).invoked) :
    j ∈ acc.invoked ∨ ∃ u ∈ l, j = u.id ∧
      ∃ a bs, cenv.horizonAccount u.stellar_account = HorizonAccountResult.account a ∧
        a.balances = some bs ∧ ∃ b ∈ bs, b.asset_code = some u.asset.code := by
  induction l generalizing acc with
  | nil => exact Or.inl hj
  | cons u rest ih =>
      rw [List.foldl_cons] at hj
      rcases ih _ hj with h | ⟨v, hv, rest2⟩
      · rcases step_invoked_sub cenv acc u j h with h2 | ⟨h2, h3⟩
        · exact Or.inl h2
        · exact Or.inr ⟨u, List.mem_cons_self u rest, h2, h3⟩
      · exact Or.inr ⟨v, List.mem_cons_of_mem u hv, rest2⟩

/-- C7: a `check_trustlines` run over a database with distinct ids
considers exactly the rows in `pending_trust`: every row in any other
status is left untouched and never passed to the settlement entry point;
a `pending_trust` row is left untouched and not passed on when its
account read fails, when the account carries no balances key, or when no
fetched balance has an asset code equal to the row's asset code; and when
such a balance exists the settlement entry point is re-invoked on the
row's id. -/
theorem c7_check_trustlines_scope (cenv : CheckEnv) (db : List Transaction)
    (hnodup : (db.map Transaction.id).Nodup) :
    (∀ t ∈ db, t.status ≠ Status.pending_trust →
       dbGet (check_trustlines cenv db).db t.id = dbGet db t.id ∧
       t.id ∉ (check_trustlines cenv db).invoked) ∧
    (∀ t ∈ db, t.status = Status.pending_trust →
       (∀ m, cenv.horizonAccount t.stellar_account =
           HorizonAccountResult.stellarError m →
          dbGet (check_trustlines cenv db).db t.id = dbGet db t.id ∧
          t.id ∉ (check_trustlines cenv db).invoked) ∧
       (∀ a, cenv.horizonAccount t.stellar_account =
           HorizonAccountResult.account a →
          (a.balances = none →
            dbGet (check_trustlines cenv db).db t.id = dbGet db t.id ∧
            t.id ∉ (check_trustlines cenv db).invoked) ∧
          (∀ bs, a.balances = some bs →
            ((¬ ∃ b ∈ bs, b.asset_code = some t.asset.code) →
              dbGet (check_trustlines cenv db).db t.id = dbGet db t.id ∧
              t.id ∉ (check_trustlines cenv db).invoked) ∧
            ((∃ b ∈ bs, b.asset_code = some t.asset.code) →
              t.id ∈ (check_trustlines cenv db).invoked)))) := by
  have hinj : ∀ x ∈ db, ∀ y ∈ db, x.id = y.id → x = y := by
    intro x hx y hy h
    exact List.inj_on_of_nodup_map hnodup hx hy h
  have hsnap : ∀ u : Transaction,
      u ∈ db.filter (fun v => v.status = Status.pending_trust) →
      u ∈ db ∧ u.status = Status.pending_trust := by
    intro u hu
    have := List.mem_filter.mp hu
    exact ⟨this.1, by simpa using this.2⟩
  have hunchanged : ∀ t ∈ db,
      (∀ u ∈ db.filter (fun v => v.status = Status.pending_trust),
         u.id ≠ t.id ∨ (∀ a2, checkTrustlinesStep cenv a2 u = a2)) →
      dbGet (check_trustlines cenv db).db t.id = dbGet db t.id := by
    intro t ht hl
    exact fold_db_preserve cenv _ { db := db, invoked := [] } t.id hl
  have hnotinv : ∀ t ∈ db,
      t.id ∈ (check_trustlines cenv db).invoked →
      ∃ u, (u ∈ db ∧ u.status = Status.pending_trust) ∧ t.id = u.id ∧
        ∃ a bs, cenv.horizonAccount u.stellar_account =
            HorizonAccountResult.account a ∧
          a.balances = some bs ∧ ∃ b ∈ bs, b.asset_code = some u.asset.code := by
    intro t ht hmem
    rcases fold_invoked_sub cenv _ { db := db, invoked := [] } t.id hmem with
      h | ⟨u, hu, h1, h2⟩
    · simp at h
    · exact ⟨u, hsnap u hu, h1, h2⟩
  constructor
  · intro t ht hnt
    constructor
    · refine hunchanged t ht ?_
      intro u hu
      left
      intro hid
      exact hnt (((hinj u (hsnap u hu).1 t ht hid) ▸ (hsnap u hu).2))
    · intro hmem
      rcases hnotinv t ht hmem with ⟨u, ⟨hu1, hu2⟩, h1, _⟩
      exact hnt ((hinj u hu1 t ht h1.symm) ▸ hu2)
  · intro t ht hpt
    have hskip_all : ∀ hskip :
        (∃ m, cenv.horizonAccount t.stellar_account =
            HorizonAccountResult.stellarError m) ∨
        (∃ a, cenv.horizonAccount t.stellar_account =
            HorizonAccountResult.account a ∧
          (a.balances = none ∨ ∃ bs, a.balances = some bs ∧
            ¬ ∃ b ∈ bs, b.asset_code = some t.asset.code)),
        dbGet (check_trustlines cenv db).db t.id = dbGet db t.id ∧
        t.id ∉ (check_trustlines cenv db).invoked := by
      intro hskip
      constructor
      · refine hunchanged t ht ?_
        intro u hu
        by_cases hid : u.id = t.id
        · right
          rw [hinj u (hsnap u hu).1 t ht hid]
          exact step_skip cenv t hskip
        · exact Or.inl hid
      · intro hmem
        rcases hnotinv t ht hmem with ⟨u, ⟨hu1, hu2⟩, h1, a2, bs2, ha2, hbs2, hex2⟩
        have hut : u = t := hinj u hu1 t ht h1.symm
        subst hut
        rcases hskip with ⟨m, hm⟩ | ⟨a, ha, hrest⟩
        · rw [hm] at ha2
          cases ha2
        · rw [ha] at ha2
          cases ha2
          rcases hrest with hnone | ⟨bs, hbs, hnex⟩
          · rw [hnone] at hbs2
            cases hbs2
          · rw [hbs] at hbs2
            cases hbs2
            exact hnex hex2
    constructor
    · intro m hm
      exact hskip_all (Or.inl ⟨m, hm⟩)
    · intro a ha
      constructor
      · intro hnone
        exact hskip_all (Or.inr ⟨a, ha, Or.inl hnone⟩)
      · intro bs hbs
        constructor
        · intro hnex
          exact hskip_all (Or.inr ⟨a, ha, Or.inr ⟨bs, hbs, hnex⟩⟩)
        · intro hex
          have htmem : t ∈ db.filter (fun v => v.status = Status.pending_trust) := by
            rw [List.mem_filter]
            exact ⟨ht, by simpa using hpt⟩
          rcases List.append_of_mem htmem with ⟨l1, l2, hsplit⟩
          unfold check_trustlines
          rw [hsplit, List.foldl_append, List.foldl_cons]
          exact fold_invoked_mono cenv l2 _ t.id
            (step_invokes cenv _ t a bs ha hbs hex)

/-- Witness for C7: in the concrete fixture the parked `pending_trust`
row (id 1) is re-driven through the settlement entry point. -/
theorem c7_check_trustlines_scope_witness :
    ((c7_db.map Transaction.id).Nodup) ∧
    1 ∈ (check_trustlines c7_cenv c7_db).invoked :=
  ⟨by decide,
   ((((c7_check_trustlines_scope c7_cenv c7_db (by decide)).2 c7_row (by decide)
       (by decide)).2 { balances := some [usdBalance] } rfl).2 [usdBalance] rfl).2
     ⟨usdBalance, by decide, by decide⟩⟩

end AnchorDeposit
